import Mathlib

/-!
Verification of the Legal Assistant AI Word add-in core
(`api.ts` / `WordPanel.tsx` / `auth.ts`): the edit-operation
application protocol, its batch loops, the HTTP suggestion-source
client, and the roaming-settings credential store, shallowly
embedded as pure Lean functions over an explicit document state.
-/

namespace LegalAssistant

/-! ## Data model

`WordOperation` mirrors the TS type in `api.ts`:
`type` is a raw string (the code dispatches by string comparison on an
`any`-typed payload, so unknown kinds are representable), `new_text`,
`quote`, `severity` and `comment` are nullable/optional fields, and
`comment.body` is a required string inside an optional `comment`. -/

structure WordComment where
  title : Option String := none
  body : String
deriving Repr, DecidableEq

structure WordOperation where
  type : String
  new_text : Option String := none
  quote : Option String := none
  severity : Option String := none
  highlight : Bool := false
  comment : Option WordComment := none
deriving Repr, DecidableEq

/-! ## Host document model

The Word host is modelled (per the host-capability contract the add-in
uses) as: the text before the current selection, the selection text,
the text after it, a list of anchored comments, a list of highlighted
ranges (character offset and length inside the selection), the
track-revisions flag, and a counter of completed `context.sync` calls. -/

inductive Anchor where
  | selectionRange
  | inSelection (start len : Nat)
deriving Repr, DecidableEq

structure DocComment where
  anchor : Anchor
  text : String
deriving Repr, DecidableEq

structure DocState where
  before : String := ""
  selection : String := ""
  after : String := ""
  comments : List DocComment := []
  highlights : List (Nat × Nat) := []
  trackRevisions : Bool := false
  syncCount : Nat := 0
deriving Repr, DecidableEq

/-- One completed host synchronization call (`await context.sync()`). -/
def docSync (d : DocState) : DocState :=
  { d with syncCount := d.syncCount + 1 }

/-- Failure surfaced by one `applyOperationToWord` call: either a
client-side rejection of a malformed payload (`invalidOperation` — the
taxonomy entry the spec names; the add-in code never raises it) or a
rejected host document call (`hostError`). -/
inductive ApplyError where
  | invalidOperation (msg : String)
  | hostError (msg : String)
deriving Repr, DecidableEq

/-- `true` exactly when the outcome is a client-side `InvalidOperation`
failure. -/
def isInvalidOperationFailure : Except ApplyError DocState → Bool
  | .error (.invalidOperation _) => true
  | _ => false

inductive InsertLocation where
  | replaceLoc
  | beforeLoc
  | afterLoc
deriving Repr, DecidableEq

/-- Host capability `Range.insertText`: requires a text payload; a null
`new_text` is passed straight through by the add-in (it performs no
validation) and the host rejects the call, which surfaces as a host
error and leaves the document unchanged. -/
def hostNullTextMsg : String := "InvalidArgument: insertText requires a string"

def rangeInsertText (d : DocState) (txt : Option String) (loc : InsertLocation) :
    Except ApplyError DocState :=
  match txt with
  | none => .error (.hostError hostNullTextMsg)
  | some t =>
    match loc with
    | .replaceLoc => .ok { d with selection := t }
    | .beforeLoc => .ok { d with before := d.before ++ t }
    | .afterLoc => .ok { d with after := t ++ d.after }

/-- JS `String.prototype.trim`: strip leading and trailing whitespace
(structurally recursive so that concrete runs reduce in the kernel). -/
def jsTrim (s : String) : String :=
  ⟨((s.toList.dropWhile Char.isWhitespace).reverse.dropWhile Char.isWhitespace).reverse⟩

/-! ## Case-insensitive search within the selection

`range.search(quote, { matchCase: false, matchWholeWord: false })` is
modelled as a case-folded substring search over the selection text
only; the result is the character index of the first occurrence. -/

def foldChars (s : String) : List Char := s.toList.map Char.toLower

def findSubList (n : List Char) : List Char → Option Nat
  | [] => if n.isEmpty then some 0 else none
  | c :: t => if n.isPrefixOf (c :: t) then some 0 else (findSubList n t).map (· + 1)

def wordSearchCI (needle hay : String) : Option Nat :=
  findSubList (foldChars needle) (foldChars hay)

/-- `ciMatchAt needle hay i` holds when a case-insensitive occurrence of
`needle` starts at character index `i` of `hay`. -/
def ciMatchAt (needle hay : String) (i : Nat) : Bool :=
  (foldChars needle).isPrefixOf ((foldChars hay).drop i)

/-! ## The comment text and the fall-through comment attach -/

/-- `op.comment.title ? title + ": " + body : body` — JS truthiness:
a null/absent or empty title yields just the body. -/
def commentTextOf (c : WordComment) : String :=
  match c.title with
  | some t => if t ≠ "" then t ++ ": " ++ c.body else c.body
  | none => c.body

/-- `if (op.comment?.body) { range.insertComment(commentText) }` — the
comment is attached only when `comment` is present and `body` is a
non-empty string (JS truthiness of the optional chain). -/
def attachComment (c? : Option WordComment) (a : Anchor) (d : DocState) : DocState :=
  match c? with
  | some c =>
    if c.body ≠ "" then { d with comments := d.comments ++ [⟨a, commentTextOf c⟩] }
    else d
  | none => d

/-- The `comment_on_quote` block of `applyOperationToWord`: trim the
quote; if empty, sync and return. Otherwise search the selection
case-insensitively (one sync to load the results), optionally highlight
the first match, optionally attach the comment to it, and sync. -/
def applyCommentOnQuote (op : WordOperation) (d : DocState) : DocState :=
  let q := jsTrim (op.quote.getD "")
  if q = "" then docSync d
  else
    let d1 := docSync d
    match wordSearchCI q d1.selection with
    | none => docSync d1
    | some i =>
      let d2 :=
        if op.highlight then { d1 with highlights := d1.highlights ++ [(i, q.length)] }
        else d1
      docSync (attachComment op.comment (Anchor.inSelection i q.length) d2)

/-- `applyOperationToWord` (WordPanel.tsx): best-effort enable track
revisions, dispatch on `op.type` by string comparison; the three text
kinds insert `op.new_text` relative to the selection and then fall
through to the comment attach and a final sync; `comment_on_quote` runs
its own block; any other kind runs only the comment fall-through and
the sync. A failed host insert aborts the whole call with the host
error and no document change. -/
def applyOperationToWord (op : WordOperation) (d0 : DocState) : Except ApplyError DocState :=
  let d := { d0 with trackRevisions := true }
  if op.type = "replace_selection" then
    (rangeInsertText d op.new_text .replaceLoc).map
      (fun d1 => docSync (attachComment op.comment Anchor.selectionRange d1))
  else if op.type = "insert_after_selection" then
    (rangeInsertText d op.new_text .afterLoc).map
      (fun d1 => docSync (attachComment op.comment Anchor.selectionRange d1))
  else if op.type = "insert_before_selection" then
    (rangeInsertText d op.new_text .beforeLoc).map
      (fun d1 => docSync (attachComment op.comment Anchor.selectionRange d1))
  else if op.type = "comment_on_quote" then
    .ok (applyCommentOnQuote op d)
  else
    .ok (docSync (attachComment op.comment Anchor.selectionRange d))

/-! ## Panel flows (WordPanel.tsx)

Each flow reads the selection, refuses on an all-whitespace selection,
calls the suggestion source (the response is a parameter of the
embedding), and applies operations.  `apiCalled` records whether the
network request would have been sent. -/

structure PanelOutcome where
  status : String
  apiCalled : Bool
  doc : DocState
deriving Repr, DecidableEq

def warnSelectFirst : String := "⚠️ Please select some text first"

def applyErrorMsg : ApplyError → String
  | .invalidOperation m => m
  | .hostError m => m

/-- `range.text || ""` — the selection text as captured by the flows. -/
def readSelectionText (rangeText : Option String) : String :=
  rangeText.getD ""

/-- The `runImproveWriting` handler: guard on an empty (trimmed)
selection, then apply only `resp.operations?.[0]`. -/
def runImproveWriting (d : DocState) (operations : List WordOperation) : PanelOutcome :=
  let selectedText := d.selection
  if jsTrim selectedText = "" then ⟨warnSelectFirst, false, d⟩
  else
    match operations.head? with
    | none => ⟨"❌ No operation returned", true, d⟩
    | some op =>
      match applyOperationToWord op d with
      | .ok d1 => ⟨"✅ Improve writing applied (tracked if enabled)", true, d1⟩
      | .error e => ⟨"❌ Improve writing failed: " ++ applyErrorMsg e, true, d⟩

/-- The `for (const op of ops) await applyOperationToWord(op)` loop of
the proofread handler, run inside one `try`: returns the final document
state, the number of operations attempted, and the first error if any.
A failing operation throws into the surrounding `catch`, so the
remaining operations are not attempted and the document keeps the
effects of the operations already applied. -/
def proofreadApplyLoop : List WordOperation → DocState → DocState × Nat × Option ApplyError
  | [], d => (d, 0, none)
  | op :: rest, d =>
    match applyOperationToWord op d with
    | .error e => (d, 1, some e)
    | .ok d1 =>
      let r := proofreadApplyLoop rest d1
      (r.1, r.2.1 + 1, r.2.2)

/-- The proofread button handler. -/
def runProofread (d : DocState) (operations : List WordOperation) : PanelOutcome :=
  if jsTrim d.selection = "" then ⟨warnSelectFirst, false, d⟩
  else if operations.isEmpty then ⟨"✅ No issues found", true, d⟩
  else
    let r := proofreadApplyLoop operations d
    match r.2.2 with
    | some e => ⟨"❌ Proofread failed: " ++ applyErrorMsg e, true, r.1⟩
    | none => ⟨"✅ Added " ++ toString operations.length ++ " comments", true, r.1⟩

/-- The draft-clause button handler: guard on an empty clause request,
then apply only `resp.operations?.[0]`. -/
def runDraftClause (clauseRequest : String) (d : DocState)
    (operations : List WordOperation) : PanelOutcome :=
  if jsTrim clauseRequest = "" then ⟨"⚠️ Enter a clause request first", false, d⟩
  else
    match operations.head? with
    | none => ⟨"❌ No operation returned", true, d⟩
    | some op =>
      match applyOperationToWord op d with
      | .ok d1 => ⟨"✅ Clause inserted (tracked if enabled)", true, d1⟩
      | .error e => ⟨"❌ Draft clause failed: " ++ applyErrorMsg e, true, d⟩

/-- Sequential application of a whole batch with no failure:
`applyAll ops d = some dN` says every operation applied in order,
each from the state the previous one produced. -/
def applyAll : List WordOperation → DocState → Option DocState
  | [], d => some d
  | op :: rest, d =>
    match applyOperationToWord op d with
    | .ok d1 => applyAll rest d1
    | .error _ => none

/-! ## Suggestion-source HTTP client (`apiRequest` in api.ts)

The fetch response is modelled by its status, the `detail` field of its
JSON body when one parses (`none` when parsing fails), and the body
delivered on success.  On a non-ok response the code throws
`new Error(detail?.detail || "Request failed (status)")` — a plain
error value carrying only a message string. -/

structure HttpResponse where
  status : Nat
  jsonDetail : Option String := none
  body : String := ""
deriving Repr, DecidableEq

/-- `Response.ok`: status in the range 200–299. -/
def respOk (r : HttpResponse) : Bool := 200 ≤ r.status && r.status < 300

def apiRequest (r : HttpResponse) : Except String String :=
  if respOk r then .ok r.body
  else
    .error
      (match r.jsonDetail with
       | some dt =>
         if dt ≠ "" then dt else "Request failed (" ++ toString r.status ++ ")"
       | none => "Request failed (" ++ toString r.status ++ ")")

/-- `if (token) headers["Authorization"] = "Bearer " + token` — the
Authorization header attached to a request. -/
def authHeader (token : Option String) : Option String :=
  match token with
  | some t => if t ≠ "" then some ("Bearer " ++ t) else none
  | none => none

/-! ## Credential store (auth.ts over `Office.context.roamingSettings`)

The roaming settings are a key-value store; `saveAsync` copies the
in-memory map to the persisted one.  `getToken` reads
`roamingSettings.get(KEY) || null`. -/

def TOKEN_KEY : String := "legal_assistant_access_token"

structure RoamingSettings where
  mem : List (String × String) := []
  persisted : List (String × String) := []
deriving Repr, DecidableEq

def rsLookup : List (String × String) → String → Option String
  | [], _ => none
  | (k1, v) :: t, k => if k1 = k then some v else rsLookup t k

def rsSet : List (String × String) → String → String → List (String × String)
  | [], k, v => [(k, v)]
  | (k1, v1) :: t, k, v => if k1 = k then (k, v) :: t else (k1, v1) :: rsSet t k v

def rsRemove : List (String × String) → String → List (String × String)
  | [], _ => []
  | (k1, v1) :: t, k => if k1 = k then rsRemove t k else (k1, v1) :: rsRemove t k

def rsSaveAsync (s : RoamingSettings) : RoamingSettings :=
  { s with persisted := s.mem }

def saveToken (t : String) (s : RoamingSettings) : RoamingSettings :=
  rsSaveAsync { s with mem := rsSet s.mem TOKEN_KEY t }

/-- `roamingSettings.get(TOKEN_KEY) || null`: a missing key and an
empty-string value both come back as `none`. -/
def getToken (s : RoamingSettings) : Option String :=
  match rsLookup s.mem TOKEN_KEY with
  | some v => if v ≠ "" then some v else none
  | none => none

def clearToken (s : RoamingSettings) : RoamingSettings :=
  rsSaveAsync { s with mem := rsRemove s.mem TOKEN_KEY }

/-! ## Concrete instances used by the counterexamples and witnesses -/

def opC1 : WordOperation := { type := "replace_selection", new_text := none }

def docC1 : DocState := { selection := "todays date" }

def opBadC2 : WordOperation := { type := "replace_selection", new_text := none }

def opGoodC2 : WordOperation :=
  { type := "comment_on_quote", quote := some "ab", comment := some ⟨none, "B"⟩ }

def docC2 : DocState := { selection := "ab cd" }

def docC2mid : DocState :=
  { selection := "ab cd", comments := [⟨Anchor.inSelection 0 2, "B"⟩],
    trackRevisions := true, syncCount := 2 }

def opAC3 : WordOperation :=
  { type := "comment_on_quote", quote := some "ab", comment := some ⟨none, "First"⟩ }

def opBC3 : WordOperation :=
  { type := "comment_on_quote", quote := some "cd", comment := some ⟨none, "Second"⟩ }

def docC3 : DocState := { selection := "ab cd" }

def docC3end : DocState :=
  { selection := "ab cd",
    comments := [⟨Anchor.inSelection 0 2, "First"⟩, ⟨Anchor.inSelection 3 2, "Second"⟩],
    trackRevisions := true, syncCount := 4 }

def resp401 : HttpResponse := { status := 401, jsonDetail := some "Boom" }

def resp500 : HttpResponse := { status := 500, jsonDetail := some "Boom" }

def opC5 : WordOperation :=
  { type := "comment_on_quote", quote := some "zz", comment := some ⟨none, "B"⟩ }

def docC5 : DocState := { selection := "abc" }

def opC6 : WordOperation :=
  { type := "comment_on_quote", quote := some "Confidentiality",
    highlight := true, comment := some ⟨none, "note"⟩ }

def docC6 : DocState :=
  { before := "x", selection := "strict confidentiality terms", after := "y" }

def opC7 : WordOperation :=
  { type := "comment_on_quote", quote := some "12 months",
    comment := some ⟨none, "Confirm duration"⟩ }

def docC7 : DocState := { selection := "The Term of this Agreement is 12 months." }

def opC7bad : WordOperation :=
  { type := "comment_on_quote", quote := some "ab", comment := some ⟨some "", "B"⟩ }

def docC7bad : DocState := { selection := "xxab" }

def opC10 : WordOperation := { type := "delete_selection", comment := some ⟨none, ""⟩ }

def opC10w : WordOperation := { type := "review_note", comment := some ⟨some "T", "B"⟩ }

def docC10 : DocState := { selection := "Some clause text." }

end LegalAssistant

namespace LegalAssistant

/-! ## Helper lemmas -/

theorem attachComment_comments (c? : Option WordComment) (a : Anchor) (d : DocState) :
    (attachComment c? a d).comments = d.comments ++
      (match c? with
       | some c => if c.body ≠ "" then [⟨a, commentTextOf c⟩] else []
       | none => []) := by
  cases c? with
  | none => simp [attachComment]
  | some c =>
    by_cases h : c.body = "" <;> simp [attachComment, h]

theorem attachComment_before (c? : Option WordComment) (a : Anchor) (d : DocState) :
    (attachComment c? a d).before = d.before := by
  cases c? with
  | none => rfl
  | some c => by_cases h : c.body = "" <;> simp [attachComment, h]

theorem attachComment_selection (c? : Option WordComment) (a : Anchor) (d : DocState) :
    (attachComment c? a d).selection = d.selection := by
  cases c? with
  | none => rfl
  | some c => by_cases h : c.body = "" <;> simp [attachComment, h]

theorem attachComment_after (c? : Option WordComment) (a : Anchor) (d : DocState) :
    (attachComment c? a d).after = d.after := by
  cases c? with
  | none => rfl
  | some c => by_cases h : c.body = "" <;> simp [attachComment, h]

theorem attachComment_highlights (c? : Option WordComment) (a : Anchor) (d : DocState) :
    (attachComment c? a d).highlights = d.highlights := by
  cases c? with
  | none => rfl
  | some c => by_cases h : c.body = "" <;> simp [attachComment, h]

theorem attachComment_trackRevisions (c? : Option WordComment) (a : Anchor) (d : DocState) :
    (attachComment c? a d).trackRevisions = d.trackRevisions := by
  cases c? with
  | none => rfl
  | some c => by_cases h : c.body = "" <;> simp [attachComment, h]

theorem attachComment_syncCount (c? : Option WordComment) (a : Anchor) (d : DocState) :
    (attachComment c? a d).syncCount = d.syncCount := by
  cases c? with
  | none => rfl
  | some c => by_cases h : c.body = "" <;> simp [attachComment, h]

/-- Dispatch lemma: on a `comment_on_quote` operation the applier runs
exactly the comment-on-quote block. -/
theorem applyOperationToWord_commentOnQuote (op : WordOperation) (d : DocState)
    (hk : op.type = "comment_on_quote") :
    applyOperationToWord op d =
      .ok (applyCommentOnQuote op { d with trackRevisions := true }) := by
  unfold applyOperationToWord
  rw [hk]
  simp

end LegalAssistant

namespace LegalAssistant

/-- Soundness and minimality of the substring search: a returned index
is a match and every smaller index is not. -/
theorem findSubList_spec (n : List Char) :
    ∀ (h : List Char) (i : Nat), findSubList n h = some i →
      n.isPrefixOf (h.drop i) = true ∧ ∀ j, j < i → n.isPrefixOf (h.drop j) = false := by
  intro h
  induction h with
  | nil =>
    intro i hi
    cases n with
    | nil =>
      simp [findSubList] at hi
      subst hi
      exact ⟨rfl, fun j hj => absurd hj (Nat.not_lt_zero j)⟩
    | cons a t => simp [findSubList, List.isEmpty] at hi
  | cons c t ih =>
    intro i hi
    rw [findSubList] at hi
    by_cases hp : n.isPrefixOf (c :: t) = true
    · rw [if_pos hp] at hi
      obtain rfl : (0 : Nat) = i := Option.some.inj hi
      exact ⟨hp, fun j hj => absurd hj (Nat.not_lt_zero j)⟩
    · rw [if_neg hp] at hi
      obtain ⟨i1, hi1, rfl⟩ := Option.map_eq_some'.mp hi
      obtain ⟨h1, h2⟩ := ih i1 hi1
      refine ⟨by simpa using h1, ?_⟩
      intro j hj
      cases j with
      | zero =>
        simpa using Bool.eq_false_iff.mpr hp
      | succ j1 =>
        simpa using h2 j1 (Nat.lt_of_succ_lt_succ hj)

/-- The host search returns the first case-insensitive occurrence. -/
theorem wordSearchCI_least (q s : String) (i : Nat)
    (h : wordSearchCI q s = some i) :
    ciMatchAt q s i = true ∧ ∀ j, j < i → ciMatchAt q s j = false := by
  have := findSubList_spec (foldChars q) (foldChars s) i h
  exact ⟨this.1, fun j hj => this.2 j hj⟩

/-- The comment-on-quote block always performs at least one host sync. -/
theorem applyCommentOnQuote_sync (op : WordOperation) (d : DocState) :
    d.syncCount < (applyCommentOnQuote op d).syncCount := by
  unfold applyCommentOnQuote
  by_cases hq : jsTrim (op.quote.getD "") = ""
  · simp [hq, docSync]
  · rw [if_neg hq]
    cases hs : wordSearchCI (jsTrim (op.quote.getD "")) d.selection with
    | none => simp only [docSync, hs]; omega
    | some i =>
      simp only [docSync, hs]
      by_cases hh : op.highlight = true <;>
        simp [hh, attachComment_syncCount] <;> omega

/-- Every successful apply performs at least one host sync before
returning: the synchronization of one operation completes before the
next operation of a batch begins. -/
theorem applyOperationToWord_ok_sync (op : WordOperation) (d d1 : DocState)
    (h : applyOperationToWord op d = .ok d1) : d.syncCount < d1.syncCount := by
  unfold applyOperationToWord at h
  split_ifs at h with h1 h2 h3 h4
  case _ =>
    cases hn : op.new_text with
    | none => rw [hn] at h; simp [rangeInsertText, Except.map] at h
    | some t =>
      rw [hn] at h
      simp only [rangeInsertText, Except.map] at h
      obtain rfl := Except.ok.inj h
      simp [docSync, attachComment_syncCount]
  case _ =>
    cases hn : op.new_text with
    | none => rw [hn] at h; simp [rangeInsertText, Except.map] at h
    | some t =>
      rw [hn] at h
      simp only [rangeInsertText, Except.map] at h
      obtain rfl := Except.ok.inj h
      simp [docSync, attachComment_syncCount]
  case _ =>
    cases hn : op.new_text with
    | none => rw [hn] at h; simp [rangeInsertText, Except.map] at h
    | some t =>
      rw [hn] at h
      simp only [rangeInsertText, Except.map] at h
      obtain rfl := Except.ok.inj h
      simp [docSync, attachComment_syncCount]
  case _ =>
    obtain rfl := Except.ok.inj h
    exact applyCommentOnQuote_sync op { d with trackRevisions := true }
  case _ =>
    obtain rfl := Except.ok.inj h
    simp [docSync, attachComment_syncCount]

theorem rsLookup_rsSet (l : List (String × String)) (k v : String) :
    rsLookup (rsSet l k v) k = some v := by
  induction l with
  | nil => simp [rsSet, rsLookup]
  | cons p t ih =>
    obtain ⟨k1, v1⟩ := p
    by_cases h : k1 = k <;> simp [rsSet, rsLookup, h, ih]

theorem rsLookup_rsRemove (l : List (String × String)) (k : String) :
    rsLookup (rsRemove l k) k = none := by
  induction l with
  | nil => simp [rsRemove, rsLookup]
  | cons p t ih =>
    obtain ⟨k1, v1⟩ := p
    by_cases h : k1 = k <;> simp [rsRemove, rsLookup, h, ih]

end LegalAssistant

namespace LegalAssistant

/-- C1 (corrected): the applier performs no `newText` validation.  For
every operation of the three text kinds whose `new_text` is null, the
apply call is rejected by the host insert (a `hostError`), not by a
client-side `InvalidOperation` check, and the document is not mutated
(the call returns no new state). -/
theorem applyOperation_nullText_hostError (op : WordOperation) (d : DocState)
    (hk : op.type = "replace_selection" ∨ op.type = "insert_after_selection" ∨
          op.type = "insert_before_selection")
    (hn : op.new_text = none) :
    applyOperationToWord op d = .error (.hostError hostNullTextMsg) := by
  unfold applyOperationToWord
  rcases hk with hk | hk | hk <;> rw [hk] <;>
    simp [rangeInsertText, hn, Except.map]

/-- C1 counterexample: on a `replace_selection` operation with null
`new_text` the failure is the host rejection, not an `InvalidOperation`
error, refuting the claimed client-side validation. -/
theorem c1_counterexample :
    applyOperationToWord opC1 docC1 = .error (.hostError hostNullTextMsg) ∧
    isInvalidOperationFailure (applyOperationToWord opC1 docC1) = false :=
  ⟨rfl, rfl⟩

/-- C1 witness: the amended theorem at a concrete input. -/
theorem c1_witness :
    applyOperationToWord { type := "insert_after_selection", new_text := none } docC1 =
      .error (.hostError hostNullTextMsg) :=
  applyOperation_nullText_hostError
    { type := "insert_after_selection", new_text := none } docC1
    (Or.inr (Or.inl rfl)) rfl

/-- C4 (corrected): a non-ok response, 401 included, surfaces as a
generic error value carrying only a message string — the JSON `detail`
field when present and non-empty, else `Request failed (status)`.  A
401 with a given detail is indistinguishable from any other failing
status with the same detail, so no distinguishable `Unauthorized`
condition exists. -/
theorem apiRequest_401_generic (dt : String) (s : Nat)
    (hdt : dt ≠ "")
    (hs : respOk { status := s, jsonDetail := some dt } = false) :
    apiRequest { status := 401, jsonDetail := some dt } = .error dt ∧
    apiRequest { status := 401, jsonDetail := some dt } =
      apiRequest { status := s, jsonDetail := some dt } ∧
    apiRequest { status := 401, jsonDetail := none } =
      .error ("Request failed (" ++ toString (401 : Nat) ++ ")") := by
  have h401 : respOk { status := 401, jsonDetail := some dt } = false := rfl
  refine ⟨?_, ?_, rfl⟩
  · simp [apiRequest, h401, hdt]
  · simp [apiRequest, h401, hs, hdt]

/-- C4 counterexample: a 401 and a 500 carrying the same JSON detail
produce identical thrown errors, and a bare 401 produces only the
generic message — the caller cannot recognise an Unauthorized
condition from the outcome. -/
theorem c4_counterexample :
    apiRequest resp401 = .error "Boom" ∧
    apiRequest resp500 = .error "Boom" ∧
    apiRequest { status := 401 } = .error "Request failed (401)" :=
  ⟨rfl, rfl, rfl⟩

/-- C4 witness: the amended theorem at detail `"Boom"` and status 500. -/
theorem c4_witness :
    apiRequest { status := 401, jsonDetail := some "Boom" } = .error "Boom" ∧
    apiRequest { status := 401, jsonDetail := some "Boom" } =
      apiRequest { status := 500, jsonDetail := some "Boom" } ∧
    apiRequest { status := 401, jsonDetail := none } =
      .error ("Request failed (" ++ toString (401 : Nat) ++ ")") :=
  apiRequest_401_generic "Boom" 500 (by decide) rfl

/-- C8 (corrected): saving a non-empty token and reading it back
(without clearing) returns the identical string, and after clearing the
read returns none; the round trip fails for the empty string because
`getToken` coerces a stored empty string to null. -/
theorem token_roundtrip (t : String) (s : RoamingSettings) (ht : t ≠ "") :
    getToken (saveToken t s) = some t ∧ getToken (clearToken s) = none := by
  constructor
  · unfold getToken saveToken rsSaveAsync
    simp [rsLookup_rsSet, ht]
  · unfold getToken clearToken rsSaveAsync
    simp [rsLookup_rsRemove]

/-- C8 counterexample: saving the empty-string token and reading it
back yields none (the `|| null` coercion in `getToken`), not the
identical string. -/
theorem c8_counterexample :
    getToken (saveToken "" { mem := [], persisted := [] }) = none ∧
    (none : Option String) ≠ some "" :=
  ⟨rfl, by simp⟩

/-- C8 witness: the amended theorem at a concrete non-empty token. -/
theorem c8_witness :
    getToken (saveToken "tok123" { mem := [], persisted := [] }) = some "tok123" ∧
    getToken (clearToken { mem := [], persisted := [] }) = none :=
  token_roundtrip "tok123" { mem := [], persisted := [] } (by decide)

/-- C9 (confirmed): the selection is read verbatim (including internal
whitespace, empty string when nothing is selected), and a flow whose
captured selection is empty refuses to proceed: it surfaces the
user-facing warning, sends no request, and leaves the document
unchanged. -/
theorem selection_verbatim_empty_guard (r : String) (d : DocState)
    (ops : List WordOperation) (h : d.selection = "") :
    readSelectionText (some r) = r ∧ readSelectionText none = "" ∧
    runImproveWriting d ops = ⟨warnSelectFirst, false, d⟩ ∧
    runProofread d ops = ⟨warnSelectFirst, false, d⟩ := by
  refine ⟨rfl, rfl, ?_, ?_⟩
  · unfold runImproveWriting
    rw [h]
    rfl
  · unfold runProofread
    rw [h]
    rfl

/-- C9 witness: verbatim read of a string with internal whitespace, and
the empty-selection refusal of both flows at a concrete input. -/
theorem c9_witness :
    readSelectionText (some "a  b") = "a  b" ∧ readSelectionText none = "" ∧
    runImproveWriting { selection := "" }
        [{ type := "comment_on_quote", quote := some "x", comment := some ⟨none, "y"⟩ }] =
      ⟨warnSelectFirst, false, { selection := "" }⟩ ∧
    runProofread { selection := "" }
        [{ type := "comment_on_quote", quote := some "x", comment := some ⟨none, "y"⟩ }] =
      ⟨warnSelectFirst, false, { selection := "" }⟩ :=
  selection_verbatim_empty_guard "a  b" { selection := "" }
    [{ type := "comment_on_quote", quote := some "x", comment := some ⟨none, "y"⟩ }] rfl

/-- C10 (corrected): an operation of unknown kind raises no error and
mutates no text; the host sync still occurs; and a comment is attached
to the entire selection range exactly when `comment` is present with a
non-empty `body` (an empty body attaches nothing). -/
theorem unknown_kind_apply (op : WordOperation) (d : DocState)
    (h1 : op.type ≠ "replace_selection")
    (h2 : op.type ≠ "insert_after_selection")
    (h3 : op.type ≠ "insert_before_selection")
    (h4 : op.type ≠ "comment_on_quote") :
    applyOperationToWord op d = .ok
      { d with
        trackRevisions := true
        syncCount := d.syncCount + 1
        comments := d.comments ++
          (match op.comment with
           | some c => if c.body ≠ "" then [⟨Anchor.selectionRange, commentTextOf c⟩] else []
           | none => []) } := by
  unfold applyOperationToWord
  rw [if_neg h1, if_neg h2, if_neg h3, if_neg h4]
  cases hc : op.comment with
  | none => simp [attachComment, docSync]
  | some c =>
    by_cases hb : c.body = "" <;> simp [attachComment, docSync, hb]

/-- C10 counterexample: unknown kind `delete_selection` with a comment
present whose body is the empty string — apply succeeds, but no comment
is attached, refuting the claim for a present-but-empty body. -/
theorem c10_counterexample :
    opC10.comment = some ⟨none, ""⟩ ∧
    applyOperationToWord opC10 docC10 =
      .ok { docC10 with trackRevisions := true, syncCount := 1 } ∧
    ({ docC10 with trackRevisions := true, syncCount := 1 } : DocState).comments = [] :=
  ⟨rfl, rfl, rfl⟩

/-- C10 witness: the amended theorem at the unknown kind `review_note`
with a titled, non-empty comment. -/
theorem c10_witness :
    applyOperationToWord opC10w docC10 =
      .ok { docC10 with
            trackRevisions := true
            syncCount := 1
            comments := [⟨Anchor.selectionRange, "T: B"⟩] } :=
  unknown_kind_apply opC10w docC10 (by decide) (by decide) (by decide) (by decide)

end LegalAssistant

namespace LegalAssistant

/-- C5 (confirmed): a `comment_on_quote` operation whose quote is empty,
or whose quote has no case-insensitive match inside the current
selection, returns success and mutates no document content — text,
comments and highlights are unchanged — while host synchronization
still occurs (once for the empty-quote early return, twice on the
no-match path). -/
theorem commentOnQuote_noMatch_noop (op : WordOperation) (d : DocState)
    (hk : op.type = "comment_on_quote")
    (h : jsTrim (op.quote.getD "") = "" ∨
         wordSearchCI (jsTrim (op.quote.getD "")) d.selection = none) :
    applyOperationToWord op d = .ok
      { d with
        trackRevisions := true
        syncCount := d.syncCount +
          (if jsTrim (op.quote.getD "") = "" then 1 else 2) } := by
  obtain ⟨b, sel, aft, cm, hl, tr, sc⟩ := d
  rw [applyOperationToWord_commentOnQuote op _ hk]
  unfold applyCommentOnQuote
  by_cases hq : jsTrim (op.quote.getD "") = ""
  · simp [hq, docSync]
  · have hs : wordSearchCI (jsTrim (op.quote.getD "")) sel = none := by
      rcases h with h | h
      · exact absurd h hq
      · exact h
    simp [hq, hs, docSync]

/-- C5 witness: concrete no-match input (quote `"zz"`, selection
`"abc"`). -/
theorem c5_witness :
    applyOperationToWord opC5 docC5 = .ok
      { docC5 with trackRevisions := true, syncCount := 2 } :=
  commentOnQuote_noMatch_noop opC5 docC5 rfl (Or.inr rfl)

/-- C6 (confirmed): for a `comment_on_quote` operation with a non-empty
quote that matches, the matched index is a case-insensitive occurrence
inside the selection text and every smaller index is not (first match,
case-insensitive, no whole-word constraint); the matched range — and
only it — is highlighted and commented, and the text around the
selection plays no part (the result changes only selection-relative
state). -/
theorem commentOnQuote_search_first_ci (op : WordOperation) (d : DocState)
    (c : WordComment) (i : Nat)
    (hk : op.type = "comment_on_quote")
    (hq : jsTrim (op.quote.getD "") ≠ "")
    (hi : wordSearchCI (jsTrim (op.quote.getD "")) d.selection = some i)
    (hh : op.highlight = true)
    (hc : op.comment = some c)
    (hb : c.body ≠ "") :
    ciMatchAt (jsTrim (op.quote.getD "")) d.selection i = true ∧
    (∀ j, j < i → ciMatchAt (jsTrim (op.quote.getD "")) d.selection j = false) ∧
    applyOperationToWord op d = .ok
      { d with
        trackRevisions := true
        syncCount := d.syncCount + 2
        highlights := d.highlights ++ [(i, (jsTrim (op.quote.getD "")).length)]
        comments := d.comments ++
          [⟨Anchor.inSelection i (jsTrim (op.quote.getD "")).length, commentTextOf c⟩] } := by
  obtain ⟨hm1, hm2⟩ := wordSearchCI_least _ _ _ hi
  refine ⟨hm1, hm2, ?_⟩
  obtain ⟨b, sel, aft, cm, hl, tr, sc⟩ := d
  rw [applyOperationToWord_commentOnQuote op _ hk]
  unfold applyCommentOnQuote
  simp only [hq, if_neg hq]
  simp [hi, hh, attachComment, hc, hb, docSync]

/-- C6 witness: quote `"Confidentiality"` matches the lower-case
occurrence at index 7 of the selection `"strict confidentiality
terms"`, which is highlighted and commented. -/
theorem c6_witness :
    applyOperationToWord opC6 docC6 = .ok
      { docC6 with
        trackRevisions := true
        syncCount := 2
        highlights := [(7, 15)]
        comments := [⟨Anchor.inSelection 7 15, "note"⟩] } :=
  (commentOnQuote_search_first_ci opC6 docC6 ⟨none, "note"⟩ 7
    rfl (by decide) rfl rfl rfl (by decide)).2.2

/-- C7 (corrected): when the quote matches and `comment.body` is
non-empty, the attached comment text is produced by `commentTextOf`:
`"{title}: {body}"` when the title is present and non-empty, and
exactly `body` when the title is absent or the empty string (the code
tests JS truthiness, so a present-but-empty title does not produce the
`"{title}: {body}"` form). -/
theorem commentOnQuote_comment_text_format (op : WordOperation) (d : DocState)
    (c : WordComment) (i : Nat)
    (hk : op.type = "comment_on_quote")
    (hq : jsTrim (op.quote.getD "") ≠ "")
    (hi : wordSearchCI (jsTrim (op.quote.getD "")) d.selection = some i)
    (hc : op.comment = some c)
    (hb : c.body ≠ "") :
    applyOperationToWord op d = .ok
      { d with
        trackRevisions := true
        syncCount := d.syncCount + 2
        highlights :=
          if op.highlight then
            d.highlights ++ [(i, (jsTrim (op.quote.getD "")).length)]
          else d.highlights
        comments := d.comments ++
          [⟨Anchor.inSelection i (jsTrim (op.quote.getD "")).length, commentTextOf c⟩] } ∧
    (c.title = none → commentTextOf c = c.body) ∧
    (c.title = some "" → commentTextOf c = c.body) ∧
    (∀ t, c.title = some t → t ≠ "" → commentTextOf c = t ++ ": " ++ c.body) := by
  refine ⟨?_, ?_, ?_, ?_⟩
  · obtain ⟨b, sel, aft, cm, hl, tr, sc⟩ := d
    rw [applyOperationToWord_commentOnQuote op _ hk]
    unfold applyCommentOnQuote
    simp only [hq, if_neg hq]
    by_cases hh : op.highlight = true <;>
      simp [hi, hh, attachComment, hc, hb, docSync]
  · intro ht; simp [commentTextOf, ht]
  · intro ht; simp [commentTextOf, ht]
  · intro t ht htne; simp [commentTextOf, ht, htne]

/-- C7 counterexample: a present-but-empty title (`title = some ""`)
with body `"B"` attaches the comment text `"B"`, not the claimed
`"{title}: {body}"` form `": B"`. -/
theorem c7_counterexample :
    opC7bad.comment = some ⟨some "", "B"⟩ ∧
    applyOperationToWord opC7bad docC7bad = .ok
      { docC7bad with
        trackRevisions := true
        syncCount := 2
        comments := [⟨Anchor.inSelection 2 2, "B"⟩] } ∧
    ("B" : String) ≠ "" ++ ": " ++ "B" :=
  ⟨rfl, rfl, by decide⟩

/-- C7 witness: the example from the claim — quote `"12 months"` in the
selection `"The Term of this Agreement is 12 months."` with comment
body `"Confirm duration"` and no title attaches a comment reading
exactly `"Confirm duration"`, anchored to the matched substring. -/
theorem c7_witness :
    applyOperationToWord opC7 docC7 = .ok
      { docC7 with
        trackRevisions := true
        syncCount := 2
        comments := [⟨Anchor.inSelection 30 9, "Confirm duration"⟩] } ∧
    commentTextOf ⟨none, "Confirm duration"⟩ = "Confirm duration" := by
  have h := commentOnQuote_comment_text_format opC7 docC7
    ⟨none, "Confirm duration"⟩ 30 rfl (by decide) rfl rfl (by decide)
  exact ⟨h.1, h.2.1 rfl⟩

end LegalAssistant

namespace LegalAssistant

/-- C2 (corrected): when operation k of a proofread batch fails, the
effects of operations 1..k-1 are kept — the final document is exactly
the state after applying them, with no rollback — but the loop
short-circuits: exactly k operations are attempted, so operations
k+1..N are NOT attempted, and the single error is surfaced. -/
theorem proofread_no_rollback_short_circuit
    (pre post : List WordOperation) (bad : WordOperation)
    (d d1 : DocState) (e : ApplyError)
    (hpre : applyAll pre d = some d1)
    (hbad : applyOperationToWord bad d1 = .error e) :
    proofreadApplyLoop (pre ++ bad :: post) d = (d1, pre.length + 1, some e) := by
  induction pre generalizing d with
  | nil =>
    obtain rfl : d = d1 := by simpa [applyAll] using hpre
    simp [proofreadApplyLoop, hbad]
  | cons p t ih =>
    rw [List.cons_append]
    unfold proofreadApplyLoop
    unfold applyAll at hpre
    cases hp : applyOperationToWord p d with
    | error e2 => rw [hp] at hpre; simp at hpre
    | ok dmid =>
      rw [hp] at hpre
      simp [hp, ih dmid hpre]

/-- C2 counterexample: in the batch `[opBadC2, opGoodC2]` the first
operation fails, only one operation is attempted, and the document
shows none of the second operation's effect — although applying the
second operation by itself would attach its comment.  This refutes
"operations k+1..N are still attempted". -/
theorem c2_counterexample :
    proofreadApplyLoop [opBadC2, opGoodC2] docC2 =
      (docC2, 1, some (.hostError hostNullTextMsg)) ∧
    (proofreadApplyLoop [opGoodC2] docC2).1.comments =
      [⟨Anchor.inSelection 0 2, "B"⟩] :=
  ⟨rfl, rfl⟩

/-- C2 witness: one successful operation, then a failing one, then one
more — the final state keeps the first operation's effect, two
operations were attempted, the third was not. -/
theorem c2_witness :
    proofreadApplyLoop ([opGoodC2] ++ opBadC2 :: [opGoodC2]) docC2 =
      (docC2mid, 2, some (.hostError hostNullTextMsg)) :=
  proofread_no_rollback_short_circuit [opGoodC2] [opGoodC2] opBadC2 docC2 docC2mid
    (.hostError hostNullTextMsg) rfl rfl

/-- C3 (corrected): the proofread flow applies every operation of the
batch strictly in the order received — the final state is the
sequential left-to-right composition, every operation is attempted,
and each successful operation completes at least one host sync before
the next begins (so the final sync count grows by at least the batch
length); the improve-writing and draft-clause flows, by contrast, are
insensitive to everything after the first operation of the batch. -/
theorem batch_sequential_order (ops : List WordOperation) (d dN : DocState)
    (h : applyAll ops d = some dN) :
    proofreadApplyLoop ops d = (dN, ops.length, none) ∧
    d.syncCount + ops.length ≤ dN.syncCount ∧
    (∀ (d2 : DocState) (op : WordOperation) (rest1 rest2 : List WordOperation),
      runImproveWriting d2 (op :: rest1) = runImproveWriting d2 (op :: rest2)) ∧
    (∀ (cr : String) (d2 : DocState) (op : WordOperation)
      (rest1 rest2 : List WordOperation),
      runDraftClause cr d2 (op :: rest1) = runDraftClause cr d2 (op :: rest2)) := by
  have main : ∀ (ops : List WordOperation) (d dN : DocState),
      applyAll ops d = some dN →
      proofreadApplyLoop ops d = (dN, ops.length, none) ∧
        d.syncCount + ops.length ≤ dN.syncCount := by
    intro ops
    induction ops with
    | nil =>
      intro d dN h
      obtain rfl : d = dN := by simpa [applyAll] using h
      simp [proofreadApplyLoop]
    | cons op rest ih =>
      intro d dN h
      unfold applyAll at h
      cases hp : applyOperationToWord op d with
      | error e => rw [hp] at h; simp at h
      | ok dmid =>
        rw [hp] at h
        obtain ⟨h1, h2⟩ := ih dmid dN h
        have hsync := applyOperationToWord_ok_sync op d dmid hp
        constructor
        · unfold proofreadApplyLoop
          simp [hp, h1]
        · simp only [List.length_cons]
          omega
  exact ⟨(main ops d dN h).1, (main ops d dN h).2,
    fun d2 op rest1 rest2 => rfl, fun cr d2 op rest1 rest2 => rfl⟩

/-- C3 counterexample: the improve-writing flow, given a 2-operation
batch from one suggestion-source call, applies only the first — the
second comment is missing from its result, although sequentially
applying the whole batch attaches both. -/
theorem c3_counterexample :
    ((runImproveWriting docC3 [opAC3, opBC3]).doc).comments =
      [⟨Anchor.inSelection 0 2, "First"⟩] ∧
    ((proofreadApplyLoop [opAC3, opBC3] docC3).1).comments =
      [⟨Anchor.inSelection 0 2, "First"⟩, ⟨Anchor.inSelection 3 2, "Second"⟩] :=
  ⟨rfl, rfl⟩

/-- C3 witness: a concrete 2-operation proofread batch is applied in
order, both operations attempted, no error. -/
theorem c3_witness :
    proofreadApplyLoop [opAC3, opBC3] docC3 = (docC3end, 2, none) :=
  (batch_sequential_order [opAC3, opBC3] docC3 docC3end rfl).1

end LegalAssistant
